import Mathlib

/-!
Verification of the change-coalescing document observer
(`src/ts/ContentScript/DocumentObserver.ts`).

Shallow embedding conventions:
* DOM elements are identified by `Nat` ids; `Set<Element>` becomes `Finset Nat`.
* Timestamps (`Date.now()`) are `Nat` milliseconds.
* A `setTimeout` handle is modelled as `Option Nat` storing the timer's
  deadline (`armTime + delay`); `clearTimeout` + clearing the field becomes
  setting the option to `none`.  `setTimeout` in a browser returns a positive
  integer id, so the source's truthiness test `!handle` is modelled by
  `Option.isNone`.
* Event-dispatcher `raise` calls become values of an event-log list.
-/

/-- Source line 7: `const mutationThrottleTime = 30`. -/
def mutationThrottleTime : Nat := 30

/-- Source line 7: `const maxMutationsCount = 300`. -/
def maxMutationsCount : Nat := 300

/-- Source line 226: `private addedElementsGroupMinimumSize = 50`. -/
def addedElementsGroupMinimumSize : Nat := 50

/-- Source line 227: `private addedElementsGroupAbsoluteTimeoutMS = 100`. -/
def addedElementsGroupAbsoluteTimeoutMS : Nat := 100

/-- Source line 228: `private addedElementsGroupSlidingTimeoutMS = 30`. -/
def addedElementsGroupSlidingTimeoutMS : Nat := 30

/-- Source lines 9-13: `enum ObservationState { Active, Stopped }`. -/
inductive ObservationState where
  | Active
  | Stopped
deriving DecidableEq

/-- One `raise` on one of the four event channels (source lines 49-71). -/
inductive ChannelEvent where
  | classChanged (els : Finset Nat)
  | styleChanged (els : Finset Nat)
  | elementsAdded (els : Finset Nat)
  | targetedUpdate (el : Nat)
deriving DecidableEq

/-- State of the added-elements batch accumulator (source lines 226-231).
`slidingTimeout` / `absoluteTimeout` hold the pending timer deadlines. -/
structure AccState where
  slidingTimeout : Option Nat
  absoluteTimeout : Option Nat
  group : Finset Nat
deriving DecidableEq

/-- The accumulator state before any add: no timers pending, empty group. -/
def accInit : AccState := ⟨none, none, ∅⟩

/-- Source lines 286-292, `clearAllTimeouts`: cancel both timers and clear
both stored handles. -/
def clearAllTimeouts (st : AccState) : AccState :=
  { st with slidingTimeout := none, absoluteTimeout := none }

/-- Source lines 275-284, `releaseAddedElementsGroup`: clear all timeouts,
then, if the group is non-empty, raise `ElementsAdded` with the group set and
clear the group.  (The `title` argument is only used by a commented-out
`console.log` and is omitted.) -/
def releaseAddedElementsGroup (st : AccState) : AccState × List ChannelEvent :=
  if st.group = ∅ then (clearAllTimeouts st, [])
  else ({ clearAllTimeouts st with group := ∅ },
        [ChannelEvent.elementsAdded st.group])

/-- Source lines 234-236 of `groupAddedElements`: cancel the pending sliding
timer and merge the incoming elements into the group
(`new Set([...group, ...added])`). -/
def mergeGroup (st : AccState) (addedElements : Finset Nat) : AccState :=
  { st with slidingTimeout := none, group := st.group ∪ addedElements }

/-- Source lines 264-271: the absolute timer is armed only when no absolute
timer handle is stored (first chunk of a fresh group). -/
def armAbsolute (now : Nat) : Option Nat → Option Nat
  | none => some (now + addedElementsGroupAbsoluteTimeoutMS)
  | some d => some d

/-- Source lines 259-271: re-arm the sliding timer and arm the absolute timer
if it is not already pending. -/
def armTimers (now : Nat) (st : AccState) : AccState :=
  { st with
      slidingTimeout := some (now + addedElementsGroupSlidingTimeoutMS),
      absoluteTimeout := armAbsolute now st.absoluteTimeout }

/-- Source lines 232-273, `groupAddedElements`: cancel the sliding timer,
merge, then either flush immediately (merged size above the minimum group
size) or buffer and (re-)arm the timers.  The defensive hiding of buffered
elements (lines 244-257) mutates only the DOM elements' style, never the
accumulator state, and is outside the embedded state. -/
def groupAddedElements (now : Nat) (addedElements : Finset Nat) (st : AccState) :
    AccState × List ChannelEvent :=
  if addedElementsGroupMinimumSize < (mergeGroup st addedElements).group.card then
    releaseAddedElementsGroup (mergeGroup st addedElements)
  else
    (armTimers now (mergeGroup st addedElements), [])

/-! ## Timed event-loop model for the flush timers

The browser event loop delivers each `setTimeout` callback once its deadline
is reached (unless cancelled by `clearTimeout`).  A run interleaves external
`groupAddedElements` calls with timer firings; a timer with deadline `d`
that is still pending when the clock passes `d` fires at `d`.  Events are
logged together with the time at which they were raised. -/

/-- Whether a pending timer's deadline has been reached at time `t`. -/
def timerDue (t : Nat) : Option Nat → Bool
  | none => false
  | some d => decide (d ≤ t)

/-- The time at which the first due timer fires: the earliest deadline among
the due timers of `st` (meaningful only when some timer is due). -/
def firedAt (t : Nat) (st : AccState) : Nat :=
  match st.slidingTimeout, st.absoluteTimeout with
  | some d1, some d2 =>
      if d1 ≤ t ∧ d2 ≤ t then min d1 d2 else if d1 ≤ t then d1 else d2
  | some d1, none => d1
  | none, some d2 => d2
  | none, none => t

/-- Deliver a due timer callback, if any.  Whichever of the two release
callbacks runs first executes `releaseAddedElementsGroup`, which cancels the
other timer (`clearAllTimeouts`), so at most one release fires. -/
def fireDueTimers (t : Nat) (st : AccState) : AccState × List (Nat × ChannelEvent) :=
  if timerDue t st.slidingTimeout || timerDue t st.absoluteTimeout then
    ((releaseAddedElementsGroup st).1,
     (releaseAddedElementsGroup st).2.map (fun e => (firedAt t st, e)))
  else
    (st, [])

/-- One external `groupAddedElements` call at time `t`: first the event loop
delivers any timer callback already due, then the observer callback runs. -/
def stepAdd (t : Nat) (es : Finset Nat) (st : AccState) :
    AccState × List (Nat × ChannelEvent) :=
  ((groupAddedElements t es (fireDueTimers t st).1).1,
   (fireDueTimers t st).2 ++
     (groupAddedElements t es (fireDueTimers t st).1).2.map (fun e => (t, e)))

/-- Run a schedule of timed adds. -/
def runAdds : List (Nat × Finset Nat) → AccState → AccState × List (Nat × ChannelEvent)
  | [], st => (st, [])
  | (t, es) :: rest, st =>
      ((runAdds rest (stepAdd t es st).1).1,
       (stepAdd t es st).2 ++ (runAdds rest (stepAdd t es st).1).2)

/-- Run a schedule of timed adds from the initial accumulator state, then let
the event loop run until time `tEnd` (delivering any still-pending due
timer). -/
def runScenario (sched : List (Nat × Finset Nat)) (tEnd : Nat) :
    AccState × List (Nat × ChannelEvent) :=
  ((fireDueTimers tEnd (runAdds sched accInit).1).1,
   (runAdds sched accInit).2 ++ (fireDueTimers tEnd (runAdds sched accInit).1).2)

/-- An `ElementsAdded` flush has been raised no later than time `bound`. -/
def flushedBy (bound : Nat) (log : List (Nat × ChannelEvent)) : Prop :=
  ∃ tf s, (tf, ChannelEvent.elementsAdded s) ∈ log ∧ tf ≤ bound

/-- The invariant carried along a run: either a flush has already been raised
by time `bound`, or the absolute timer is pending with deadline `bound` and
the group is non-empty. -/
def accInv (bound : Nat) (st : AccState) (log : List (Nat × ChannelEvent)) : Prop :=
  flushedBy bound log ∨ (st.absoluteTimeout = some bound ∧ st.group ≠ ∅)

/-! ## Classification of attribute mutation records (source lines 155-224) -/

/-- Per-element bookkeeping read by `bodyObserverCallback`: the element's
last recorded mutation timestamp (`mlTimestamp`, set by upstream processing
outside this file), its throttle counter (`mlMutationThrottledCount`,
`undefined` modelled as `0`), the upstream tracking mark (`isChecked`) and
whether the element is the document body (`instanceof HTMLBodyElement`). -/
structure ElemState where
  mlTimestamp : Option Nat
  mlMutationThrottledCount : Nat
  isChecked : Bool
  isBody : Bool
deriving DecidableEq

/-- Source lines 166-167: the record collides with the throttle window when
the target's `mlTimestamp` is truthy (present and non-zero) and less than
`mutationThrottleTime` ms old. -/
def collides (now : Nat) (e : ElemState) : Bool :=
  match e.mlTimestamp with
  | none => false
  | some ts => (ts != 0) && decide (now - ts < mutationThrottleTime)

/-- Source lines 166-171: on a collision, increment the target's
`mlMutationThrottledCount`. -/
def throttleStep (now : Nat) (e : ElemState) : ElemState :=
  if collides now e then
    { e with mlMutationThrottledCount := e.mlMutationThrottledCount + 1 }
  else e

/-- The semantic category an attribute record is mapped to (spec §4.1;
`Ignored` is the absence of any set insertion in the source's switch). -/
inductive ChangeCategory where
  | ClassChanged
  | StyleChanged
  | Ignored
deriving DecidableEq

/-- Source line 174: the eligibility predicate
`mutation.target.isChecked || mutation.target instanceof HTMLBodyElement`. -/
def eligible (e : ElemState) : Bool :=
  e.isChecked || e.isBody

/-- Source lines 165-194: classification of one `attributes` record.  The
throttle counter is incremented first (lines 166-171); the record is
classified only when the counter is below `maxMutationsCount` (the source's
`!count || count < 300`) and the target is eligible; then the attribute name
decides: `class` → `ClassChanged`; `style`/`fill`/`stroke` → `StyleChanged`
when `isComplex`, otherwise ignored; anything else ignored. -/
def classifyAttr (isComplex : Bool) (now : Nat) (e : ElemState) (attrName : String) :
    ElemState × ChangeCategory :=
  if ((throttleStep now e).mlMutationThrottledCount == 0
        || decide ((throttleStep now e).mlMutationThrottledCount < maxMutationsCount))
      && eligible (throttleStep now e) then
    if attrName == "class" then (throttleStep now e, ChangeCategory.ClassChanged)
    else if attrName == "style" || attrName == "fill" || attrName == "stroke" then
      if isComplex then (throttleStep now e, ChangeCategory.StyleChanged)
      else (throttleStep now e, ChangeCategory.Ignored)
    else (throttleStep now e, ChangeCategory.Ignored)
  else (throttleStep now e, ChangeCategory.Ignored)

/-- The pure by-attribute-name classification (no throttling), as a reference
point for the throttling theorems. -/
def nameCategory (isComplex : Bool) (attrName : String) : ChangeCategory :=
  if attrName == "class" then ChangeCategory.ClassChanged
  else if attrName == "style" || attrName == "fill" || attrName == "stroke" then
    if isComplex then ChangeCategory.StyleChanged else ChangeCategory.Ignored
  else ChangeCategory.Ignored

/-- Modelled from the spec: the reset of the per-element throttle counter is
not in `src/` (the counter is only consulted and incremented there); spec
§4.1 rule 2 states the reset occurs once the throttle window has elapsed
without a collision, so a record arriving with no collision first resets the
counter to zero. -/
def resetThrottle (now : Nat) (e : ElemState) : ElemState :=
  if collides now e then e else { e with mlMutationThrottledCount := 0 }

/-- The classifier with the spec-modelled window-lapse reset applied before
the source classification. -/
def classifyAttrModelled (isComplex : Bool) (now : Nat) (e : ElemState)
    (attrName : String) : ElemState × ChangeCategory :=
  classifyAttr isComplex now (resetThrottle now e) attrName

/-- A DOM node delivered in `mutation.addedNodes`: only `Element` instances
are collected (source lines 198-201). -/
inductive NodeM where
  | element (i : Nat)
  | nonElement
deriving DecidableEq

/-- A `MutationRecord` as consumed by `bodyObserverCallback`: an `attributes`
record (target id and attribute name), a `childList` record (added nodes) or
any other record type (ignored by the source's `default` branch). -/
inductive MRecord where
  | attrRec (target : Nat) (attrName : String)
  | childListRec (addedNodes : List NodeM)
  | otherRec
deriving DecidableEq

/-- The two live settings flags consulted by the observer (source collaborator
`_settingsManager`). -/
structure ObsEnv where
  isComplex : Bool
  isActive : Bool
deriving DecidableEq

/-- Accumulated state of the `mutations.forEach` loop of
`bodyObserverCallback` (source lines 157-207): the per-element states plus
the three sets `classChanges`, `childListChanges`, `styleChanges`. -/
structure BodyScan where
  elems : Nat → ElemState
  classChanges : Finset Nat
  childListChanges : Finset Nat
  styleChanges : Finset Nat

/-- Point update of the per-element state table. -/
def updateElem (elemTab : Nat → ElemState) (t : Nat) (e : ElemState) : Nat → ElemState :=
  fun x => if x = t then e else elemTab x

/-- Source lines 197-202: collect the `Element` members of `addedNodes`. -/
def addNodesToSet (nodes : List NodeM) (s : Finset Nat) : Finset Nat :=
  nodes.foldl
    (fun acc n =>
      match n with
      | NodeM.element i => insert i acc
      | NodeM.nonElement => acc) s

/-- One iteration of the `mutations.forEach` loop (source lines 161-207). -/
def scanMutation (isComplex : Bool) (now : Nat) (s : BodyScan) (m : MRecord) : BodyScan :=
  match m with
  | MRecord.attrRec t attrName =>
      match classifyAttr isComplex now (s.elems t) attrName with
      | (e, ChangeCategory.ClassChanged) =>
          { s with elems := updateElem s.elems t e,
                   classChanges := insert t s.classChanges }
      | (e, ChangeCategory.StyleChanged) =>
          { s with elems := updateElem s.elems t e,
                   styleChanges := insert t s.styleChanges }
      | (e, ChangeCategory.Ignored) =>
          { s with elems := updateElem s.elems t e }
  | MRecord.childListRec nodes =>
      { s with childListChanges := addNodesToSet nodes s.childListChanges }
  | MRecord.otherRec => s

/-- The whole `mutations.forEach` pass with `now = Date.now()` taken once at
entry (source line 160). -/
def bodyScan (isComplex : Bool) (now : Nat) (ms : List MRecord)
    (elemTab : Nat → ElemState) : BodyScan :=
  ms.foldl (scanMutation isComplex now) (BodyScan.mk elemTab ∅ ∅ ∅)

/-- Source lines 208-219: raise `StyleChanged` when `styleChanges` is
non-empty, feed a non-empty `childListChanges` to the batch accumulator, and
raise `ClassChanged` when `classChanges` is non-empty (the source's
`size > 0` guards become non-emptiness tests). -/
def dispatchScan (now : Nat) (s : BodyScan) (acc : AccState) :
    AccState × List ChannelEvent :=
  ((if s.childListChanges = ∅ then (acc, [])
    else groupAddedElements now s.childListChanges acc).1,
   (if s.styleChanges = ∅ then [] else [ChannelEvent.styleChanged s.styleChanges]) ++
   (if s.childListChanges = ∅ then (acc, [])
    else groupAddedElements now s.childListChanges acc).2 ++
   (if s.classChanges = ∅ then [] else [ChannelEvent.classChanged s.classChanges]))

/-- Source lines 155-224, `bodyObserverCallback`: scan the batch, dispatch,
and report whether the observer disconnects itself (`!isActive`, lines
220-223).  Result: (element states, accumulator state, raised events,
self-disconnect flag). -/
def bodyObserverCallback (env : ObsEnv) (now : Nat) (ms : List MRecord)
    (elemTab : Nat → ElemState) (acc : AccState) :
    (Nat → ElemState) × AccState × List ChannelEvent × Bool :=
  ((bodyScan env.isComplex now ms elemTab).elems,
   (dispatchScan now (bodyScan env.isComplex now ms elemTab) acc).1,
   (dispatchScan now (bodyScan env.isComplex now ms elemTab) acc).2,
   !env.isActive)

/-- Source lines 305-308, `updateObserverCallback`: raise `TargetedUpdate`
with `mutations[0].target`.  Indexing an empty batch would fault, hence the
`Option` (the platform never delivers an empty batch). -/
def updateObserverCallback (targets : List Nat) : Option (List ChannelEvent) :=
  match targets with
  | [] => none
  | t :: _ => some [ChannelEvent.targetedUpdate t]

/-- Every raised `ChannelEvent` carrying a set carries a non-empty set. -/
def eventSetNonempty : ChannelEvent → Prop
  | ChannelEvent.classChanged s => s ≠ ∅
  | ChannelEvent.styleChanged s => s ≠ ∅
  | ChannelEvent.elementsAdded s => s ≠ ∅
  | ChannelEvent.targetedUpdate _ => True

/-! ## Watcher lifecycle (source lines 101-153) -/

/-- A `MutationObserver` as used by this class: the `state` property the
source attaches to it, the raw records buffered but not yet delivered
(drained by `takeRecords()`), and whether it is connected. -/
structure MutObserver where
  state : ObservationState
  pending : List MRecord
  connected : Bool
deriving DecidableEq

/-- A deferred classify-and-publish pass scheduled by
`stopDocumentObservation` via `setTimeout(..., 1)` (source lines 136, 148). -/
inductive DrainTask where
  | bodyDrain (doc : Nat) (records : List MRecord)
  | headDrain (doc : Nat) (records : List MRecord)
deriving DecidableEq

/-- The observer registry (`_bodyObservers` / `_headObservers` `WeakMap`s,
documents as `Nat` ids) plus the queue of scheduled deferred drains. -/
structure SysState where
  bodyObservers : Nat → Option MutObserver
  headObservers : Nat → Option MutObserver
  tasks : List DrainTask

/-- Source lines 126-153, `stopDocumentObservation`: if a body observer
exists, synchronously take its pending records, disconnect it, set its state
to `Stopped` and schedule the deferred body drain; then, if the document has
a head and a head observer exists, do the same for it, scheduling the head
drain only in complex mode; return the body observer's previous state
(`undefined` when no body observer exists). -/
def stopDocumentObservation (isComplex : Bool) (doc : Nat) (hasHead : Bool)
    (sys : SysState) : Option ObservationState × SysState :=
  let afterBody : Option ObservationState × SysState :=
    match sys.bodyObservers doc with
    | none => (none, sys)
    | some ob =>
        (some ob.state,
         { sys with
             bodyObservers := fun d =>
               if d = doc then
                 some { state := ObservationState.Stopped, pending := [],
                        connected := false }
               else sys.bodyObservers d,
             tasks := sys.tasks ++ [DrainTask.bodyDrain doc ob.pending] })
  let afterHead : SysState :=
    if hasHead then
      match (afterBody.2).headObservers doc with
      | none => afterBody.2
      | some ho =>
          { afterBody.2 with
              headObservers := fun d =>
                if d = doc then
                  some { state := ObservationState.Stopped, pending := [],
                         connected := false }
                else (afterBody.2).headObservers d,
              tasks := (afterBody.2).tasks ++
                (if isComplex then [DrainTask.headDrain doc ho.pending] else []) }
    else afterBody.2
  (afterBody.1, afterHead)

/-- Execute one scheduled deferred drain.  A body drain runs
`bodyObserverCallback` on the captured records; a head drain calls the
external stylesheet processor (`headObserverCallback`, source lines 294-303),
which raises none of the four channels. -/
def runDrainTask (env : ObsEnv) (now : Nat) (elemTab : Nat → ElemState)
    (acc : AccState) : DrainTask → (Nat → ElemState) × AccState × List ChannelEvent × Bool
  | DrainTask.bodyDrain _ records => bodyObserverCallback env now records elemTab acc
  | DrainTask.headDrain _ _ => (elemTab, acc, [], false)

/-! ## Heap-level model of the accumulator group object (for the aliasing
behaviour of `releaseAddedElementsGroup` / `groupAddedElements`)

`Set<Element>` objects are heap references (`Nat`); `store` gives each
reference's current contents, `groupRef` is `this.addedElementsGroup`, and
`nextRef` is the next fresh allocation. -/

structure AccHeap where
  nextRef : Nat
  store : Nat → Finset Nat
  groupRef : Nat
  slidingTimeout : Option Nat
  absoluteTimeout : Option Nat

/-- Source lines 275-284 at the heap level: after clearing the timeouts, a
non-empty group is raised by reference (`raise(this.addedElementsGroup)`) and
then that same object is mutated in place (`this.addedElementsGroup.clear()`);
`groupRef` itself is unchanged — no new set is allocated by a flush. -/
def releaseAddedElementsGroupHeap (st : AccHeap) : AccHeap × List Nat :=
  if st.store st.groupRef = ∅ then
    ({ st with slidingTimeout := none, absoluteTimeout := none }, [])
  else
    ({ st with
         slidingTimeout := none,
         absoluteTimeout := none,
         store := fun r => if r = st.groupRef then ∅ else st.store r },
     [st.groupRef])

/-- Source line 236 at the heap level: `new Set([...group, ...added])`
allocates a fresh set object holding the merged contents and repoints
`this.addedElementsGroup` at it (the sliding timer was cancelled at line
234). -/
def allocMerge (added : Finset Nat) (st : AccHeap) : AccHeap :=
  { st with
      slidingTimeout := none,
      nextRef := st.nextRef + 1,
      store := fun r => if r = st.nextRef then st.store st.groupRef ∪ added
               else st.store r,
      groupRef := st.nextRef }

/-- Source lines 232-273 at the heap level: allocate the merged group object
(line 236), then flush or arm timers as in the flat model. -/
def groupAddedElementsHeap (now : Nat) (added : Finset Nat) (st : AccHeap) :
    AccHeap × List Nat :=
  if addedElementsGroupMinimumSize < (st.store st.groupRef ∪ added).card then
    releaseAddedElementsGroupHeap (allocMerge added st)
  else
    ({ allocMerge added st with
         slidingTimeout := some (now + addedElementsGroupSlidingTimeoutMS),
         absoluteTimeout := armAbsolute now (allocMerge added st).absoluteTimeout }, [])

/-! ## Batch accumulator theorems -/

/-- A non-empty group is flushed by `releaseAddedElementsGroup`: both timer
handles cleared, the whole group raised, the group emptied. -/
lemma release_of_nonempty (st : AccState) (h : st.group ≠ ∅) :
    releaseAddedElementsGroup st =
      (⟨none, none, ∅⟩, [ChannelEvent.elementsAdded st.group]) := by
  simp only [releaseAddedElementsGroup, if_neg h, clearAllTimeouts]

/-- Branch lemma: an add that lifts the merged group above the minimum size
flushes: both timers cleared, the merged set raised, the group emptied. -/
lemma groupAdded_big_flush (now : Nat) (es : Finset Nat) (st : AccState)
    (h : addedElementsGroupMinimumSize < (st.group ∪ es).card) :
    groupAddedElements now es st =
      (⟨none, none, ∅⟩, [ChannelEvent.elementsAdded (st.group ∪ es)]) := by
  have hne : st.group ∪ es ≠ ∅ := by
    intro he
    rw [he] at h
    simp [addedElementsGroupMinimumSize] at h
  have hm : (mergeGroup st es).group = st.group ∪ es := rfl
  rw [groupAddedElements, hm, if_pos h, release_of_nonempty _ (by rw [hm]; exact hne), hm]

/-- Branch lemma: a sub-threshold add buffers, re-arms the sliding timer and
arms the absolute timer only if it was not pending. -/
lemma groupAdded_small (now : Nat) (es : Finset Nat) (st : AccState)
    (h : ¬ addedElementsGroupMinimumSize < (st.group ∪ es).card) :
    groupAddedElements now es st =
      ({ slidingTimeout := some (now + addedElementsGroupSlidingTimeoutMS),
         absoluteTimeout := armAbsolute now st.absoluteTimeout,
         group := st.group ∪ es }, []) := by
  have hm : (mergeGroup st es).group = st.group ∪ es := rfl
  rw [groupAddedElements, hm, if_neg h]
  rfl

lemma flushedBy_append_left {bound : Nat} {l1 : List (Nat × ChannelEvent)}
    (l2 : List (Nat × ChannelEvent)) (h : flushedBy bound l1) :
    flushedBy bound (l1 ++ l2) := by
  obtain ⟨tf, s, hm, hle⟩ := h
  exact ⟨tf, s, List.mem_append_left _ hm, hle⟩

/-- When the absolute timer is pending with deadline `B` and some timer is
due, the delivered callback fires no later than `B`. -/
lemma firedAt_le_abs {t B : Nat} {st : AccState} (habs : st.absoluteTimeout = some B)
    (hdue : (timerDue t st.slidingTimeout || timerDue t st.absoluteTimeout) = true) :
    firedAt t st ≤ B := by
  rcases hsl : st.slidingTimeout with _ | d1
  · simp [firedAt, hsl, habs]
  · rw [hsl, habs, timerDue, timerDue, Bool.or_eq_true, decide_eq_true_eq,
      decide_eq_true_eq] at hdue
    simp only [firedAt, hsl, habs]
    rcases Nat.le_total d1 B with h | h
    · split
      · exact le_trans (Nat.min_le_left _ _) h
      · split
        · assumption
        · exact le_refl B
    · have hBt : B ≤ t := by
        rcases hdue with h1 | h2
        · exact le_trans h h1
        · exact h2
      split
      · exact Nat.min_le_right _ _
      · split
        · omega
        · exact le_refl B

/-- Delivering due timers preserves the invariant; moreover if the invariant
survives in its right disjunct the step was a no-op and the deadline is still
in the future. -/
lemma fire_inv {B : Nat} (t : Nat) {st : AccState} {log : List (Nat × ChannelEvent)}
    (h : accInv B st log) :
    flushedBy B (log ++ (fireDueTimers t st).2) ∨
      (fireDueTimers t st = (st, []) ∧ st.absoluteTimeout = some B ∧
       st.group ≠ ∅ ∧ t < B) := by
  by_cases hdue : (timerDue t st.slidingTimeout || timerDue t st.absoluteTimeout) = true
  · rcases h with hfl | ⟨habs, hgrp⟩
    · exact Or.inl (flushedBy_append_left _ hfl)
    · left
      refine ⟨firedAt t st, st.group, ?_, firedAt_le_abs habs hdue⟩
      apply List.mem_append_right
      simp [fireDueTimers, hdue, release_of_nonempty st hgrp]
  · have hfire : fireDueTimers t st = (st, []) := by
      simp [fireDueTimers, hdue]
    rcases h with hfl | ⟨habs, hgrp⟩
    · left
      rw [hfire]
      exact flushedBy_append_left _ hfl
    · right
      refine ⟨hfire, habs, hgrp, ?_⟩
      rw [Bool.or_eq_true] at hdue
      push_neg at hdue
      have := hdue.2
      rw [habs, timerDue] at this
      simpa using this

/-- A `groupAddedElements` call made strictly before the absolute deadline
preserves the invariant. -/
lemma add_inv {B t : Nat} (es : Finset Nat) {st : AccState}
    (log : List (Nat × ChannelEvent)) (hlt : t < B)
    (habs : st.absoluteTimeout = some B) (hgrp : st.group ≠ ∅) :
    accInv B (groupAddedElements t es st).1
      (log ++ (groupAddedElements t es st).2.map (fun e => (t, e))) := by
  have hmerged : st.group ∪ es ≠ ∅ := by
    intro he
    exact hgrp (Finset.union_eq_empty.mp he).1
  by_cases hbig : addedElementsGroupMinimumSize < (st.group ∪ es).card
  · left
    refine ⟨t, st.group ∪ es, ?_, le_of_lt hlt⟩
    apply List.mem_append_right
    rw [groupAdded_big_flush t es st hbig]
    simp
  · right
    rw [groupAdded_small t es st hbig]
    exact ⟨by simp [armAbsolute, habs], hmerged⟩

/-- One full add step (due-timer delivery followed by the observer callback)
preserves the invariant. -/
lemma step_inv {B : Nat} (t : Nat) (es : Finset Nat) {st : AccState}
    {log : List (Nat × ChannelEvent)} (h : accInv B st log) :
    accInv B (stepAdd t es st).1 (log ++ (stepAdd t es st).2) := by
  rcases fire_inv t h with hfl | ⟨hfire, habs, hgrp, hlt⟩
  · left
    have : log ++ (stepAdd t es st).2 =
        (log ++ (fireDueTimers t st).2) ++
          (groupAddedElements t es (fireDueTimers t st).1).2.map (fun e => (t, e)) := by
      simp [stepAdd]
    rw [this]
    exact flushedBy_append_left _ hfl
  · have h1 : (fireDueTimers t st).1 = st := by rw [hfire]
    have h2 : (fireDueTimers t st).2 = [] := by rw [hfire]
    have := add_inv es log hlt habs hgrp
    simpa [stepAdd, h1, h2] using this

/-- Running any schedule of adds preserves the invariant. -/
lemma run_inv {B : Nat} (sched : List (Nat × Finset Nat)) :
    ∀ st log, accInv B st log →
      accInv B (runAdds sched st).1 (log ++ (runAdds sched st).2) := by
  induction sched with
  | nil =>
      intro st log h
      simpa [runAdds] using h
  | cons p rest ih =>
      intro st log h
      obtain ⟨t, es⟩ := p
      have hstep := step_inv t es h
      have := ih (stepAdd t es st).1 (log ++ (stepAdd t es st).2) hstep
      simpa [runAdds] using this

/-- The first add of a fresh group establishes the invariant with deadline
`t₀ + addedElementsGroupAbsoluteTimeoutMS`. -/
lemma first_step_inv (t₀ : Nat) (es₀ : Finset Nat) (h0 : es₀ ≠ ∅) :
    accInv (t₀ + addedElementsGroupAbsoluteTimeoutMS)
      (stepAdd t₀ es₀ accInit).1 (stepAdd t₀ es₀ accInit).2 := by
  have hfire : fireDueTimers t₀ accInit = (accInit, []) := by
    simp [fireDueTimers, timerDue, accInit]
  have hstep1 : (stepAdd t₀ es₀ accInit).1 = (groupAddedElements t₀ es₀ accInit).1 := by
    simp [stepAdd, hfire]
  have hstep2 : (stepAdd t₀ es₀ accInit).2 =
      (groupAddedElements t₀ es₀ accInit).2.map (fun e => (t₀, e)) := by
    simp [stepAdd, hfire]
  have hun : accInit.group ∪ es₀ = es₀ := by
    simp [accInit]
  rw [accInv, hstep1, hstep2]
  by_cases hbig : addedElementsGroupMinimumSize < (accInit.group ∪ es₀).card
  · left
    refine ⟨t₀, accInit.group ∪ es₀, ?_, Nat.le_add_right _ _⟩
    rw [groupAdded_big_flush t₀ es₀ accInit hbig]
    simp
  · right
    rw [groupAdded_small t₀ es₀ accInit hbig, hun]
    refine ⟨?_, h0⟩
    simp [armAbsolute, accInit]

/-- Core latency bound: after a first add of a non-empty batch at `t₀`, a
flush is raised no later than `t₀ + addedElementsGroupAbsoluteTimeoutMS`,
whatever further adds occur, provided the event loop runs at least to that
deadline. -/
lemma absolute_cap_bound (t₀ : Nat) (es₀ : Finset Nat)
    (rest : List (Nat × Finset Nat)) (tEnd : Nat) (h0 : es₀ ≠ ∅)
    (hEnd : t₀ + addedElementsGroupAbsoluteTimeoutMS ≤ tEnd) :
    flushedBy (t₀ + addedElementsGroupAbsoluteTimeoutMS)
      (runScenario ((t₀, es₀) :: rest) tEnd).2 := by
  have hrun := run_inv rest (stepAdd t₀ es₀ accInit).1 (stepAdd t₀ es₀ accInit).2
    (first_step_inv t₀ es₀ h0)
  rcases fire_inv tEnd hrun with hfl | ⟨_, _, _, hlt⟩
  · simpa [runScenario, runAdds, List.append_assoc] using hfl
  · omega

/-- C2: (1) a sub-threshold add into a fresh group arms the absolute timer at
`now + addedElementsGroupAbsoluteTimeoutMS`; (2) while an absolute timer is
pending, a sub-threshold add never re-arms it; (3) any flush clears both
timers; (4) consequently a flush is raised no later than
`addedElementsGroupAbsoluteTimeoutMS` (100 ms) after the first add of a
group, regardless of any further adds resetting the sliding timer. -/
theorem absolute_timer_bound :
    (∀ (now : Nat) (es : Finset Nat) (st : AccState),
      st.absoluteTimeout = none →
      (st.group ∪ es).card ≤ addedElementsGroupMinimumSize →
      (groupAddedElements now es st).1.absoluteTimeout =
        some (now + addedElementsGroupAbsoluteTimeoutMS)) ∧
    (∀ (now : Nat) (es : Finset Nat) (st : AccState) (d : Nat),
      st.absoluteTimeout = some d →
      (st.group ∪ es).card ≤ addedElementsGroupMinimumSize →
      (groupAddedElements now es st).1.absoluteTimeout = some d) ∧
    (∀ st : AccState,
      (releaseAddedElementsGroup st).1.slidingTimeout = none ∧
      (releaseAddedElementsGroup st).1.absoluteTimeout = none) ∧
    (∀ (t₀ : Nat) (es₀ : Finset Nat) (rest : List (Nat × Finset Nat)) (tEnd : Nat),
      es₀ ≠ ∅ → t₀ + addedElementsGroupAbsoluteTimeoutMS ≤ tEnd →
      flushedBy (t₀ + addedElementsGroupAbsoluteTimeoutMS)
        (runScenario ((t₀, es₀) :: rest) tEnd).2) := by
  refine ⟨?_, ?_, ?_, absolute_cap_bound⟩
  · intro now es st habs hsz
    rw [groupAdded_small now es st (by omega)]
    simp [armAbsolute, habs]
  · intro now es st d habs hsz
    rw [groupAdded_small now es st (by omega)]
    simp [armAbsolute, habs]
  · intro st
    by_cases hg : st.group = ∅ <;>
      simp [releaseAddedElementsGroup, hg, clearAllTimeouts]

/-- Witness for C2 at concrete inputs: the first sub-threshold add at time 0
arms the absolute timer at deadline 100; a later add at time 10 keeps that
deadline; a flush clears both timers; and the single-add scenario run to
time 100 contains a flush by time 100. -/
theorem absolute_timer_bound_witness :
    (groupAddedElements 0 {1} accInit).1.absoluteTimeout =
      some (0 + addedElementsGroupAbsoluteTimeoutMS) ∧
    (groupAddedElements 10 {2} (groupAddedElements 0 {1} accInit).1).1.absoluteTimeout =
      some 100 ∧
    ((releaseAddedElementsGroup accInit).1.slidingTimeout = none ∧
     (releaseAddedElementsGroup accInit).1.absoluteTimeout = none) ∧
    flushedBy (0 + addedElementsGroupAbsoluteTimeoutMS)
      (runScenario [(0, {1})] 100).2 :=
  ⟨absolute_timer_bound.1 0 {1} accInit (by decide) (by decide),
   absolute_timer_bound.2.1 10 {2} (groupAddedElements 0 {1} accInit).1 100
     (by decide) (by decide),
   absolute_timer_bound.2.2.1 accInit,
   absolute_timer_bound.2.2.2 0 {1} [] 100 (by decide) (by decide)⟩

/-- C1: if the merged group's size after an add exceeds
`addedElementsGroupMinimumSize` (50), the group is flushed in the same call:
`ElementsAdded` is raised with exactly the merged set, the group is cleared
and neither timer is left pending. -/
theorem size_threshold_flush_immediate (now : Nat) (addedElements : Finset Nat)
    (st : AccState)
    (h : addedElementsGroupMinimumSize < (st.group ∪ addedElements).card) :
    groupAddedElements now addedElements st =
      (⟨none, none, ∅⟩, [ChannelEvent.elementsAdded (st.group ∪ addedElements)]) :=
  groupAdded_big_flush now addedElements st h

/-- Witness for C1 at the spec's concrete scenario: a single batch of 51
elements added to an empty group is published immediately, in full, with no
timer armed. -/
theorem size_threshold_flush_immediate_witness :
    addedElementsGroupMinimumSize < (accInit.group ∪ Finset.range 51).card ∧
    groupAddedElements 0 (Finset.range 51) accInit =
      (⟨none, none, ∅⟩,
       [ChannelEvent.elementsAdded (accInit.group ∪ Finset.range 51)]) :=
  ⟨by decide, size_threshold_flush_immediate 0 (Finset.range 51) accInit (by decide)⟩

/-! ## Classification theorems -/

lemma eligible_throttleStep (now : Nat) (e : ElemState) :
    eligible (throttleStep now e) = eligible e := by
  unfold throttleStep
  split <;> rfl

lemma collides_resetThrottle (now : Nat) (e : ElemState) :
    collides now (resetThrottle now e) = collides now e := by
  unfold resetThrottle
  split <;> rfl

lemma eligible_resetThrottle (now : Nat) (e : ElemState) :
    eligible (resetThrottle now e) = eligible e := by
  unfold resetThrottle
  split <;> rfl

/-- In every branch `classifyAttr` returns the throttled element state. -/
lemma classifyAttr_fst (isComplex : Bool) (now : Nat) (e : ElemState) (attrName : String) :
    (classifyAttr isComplex now e attrName).1 = throttleStep now e := by
  unfold classifyAttr
  split_ifs <;> rfl

/-- When the (post-increment) counter is below the cap and the element is
eligible, classification is by attribute name. -/
lemma classifyAttr_of_pass (isComplex : Bool) (now : Nat) (e : ElemState)
    (attrName : String)
    (hcnt : (throttleStep now e).mlMutationThrottledCount < maxMutationsCount)
    (helig : eligible e = true) :
    classifyAttr isComplex now e attrName =
      (throttleStep now e, nameCategory isComplex attrName) := by
  have hcond : (((throttleStep now e).mlMutationThrottledCount == 0
      || decide ((throttleStep now e).mlMutationThrottledCount < maxMutationsCount))
      && eligible (throttleStep now e)) = true := by
    rw [eligible_throttleStep, helig, Bool.and_true, Bool.or_eq_true]
    right
    exact decide_eq_true hcnt
  unfold classifyAttr nameCategory
  rw [if_pos hcond]
  split_ifs <;> rfl

/-- An ineligible element's attribute record is always ignored. -/
lemma classifyAttr_of_ineligible (isComplex : Bool) (now : Nat) (e : ElemState)
    (attrName : String) (helig : eligible e = false) :
    classifyAttr isComplex now e attrName =
      (throttleStep now e, ChangeCategory.Ignored) := by
  have hcond : (((throttleStep now e).mlMutationThrottledCount == 0
      || decide ((throttleStep now e).mlMutationThrottledCount < maxMutationsCount))
      && eligible (throttleStep now e)) = false := by
    rw [eligible_throttleStep, helig, Bool.and_false]
  unfold classifyAttr
  rw [if_neg (by rw [hcond]; exact Bool.false_ne_true)]

/-- Once the counter has reached the cap, the record is ignored. -/
lemma classifyAttr_of_capped (isComplex : Bool) (now : Nat) (e : ElemState)
    (attrName : String)
    (hcap : maxMutationsCount ≤ (throttleStep now e).mlMutationThrottledCount) :
    classifyAttr isComplex now e attrName =
      (throttleStep now e, ChangeCategory.Ignored) := by
  have hpos : 0 < maxMutationsCount := by decide
  have hcond : (((throttleStep now e).mlMutationThrottledCount == 0
      || decide ((throttleStep now e).mlMutationThrottledCount < maxMutationsCount))
      && eligible (throttleStep now e)) = false := by
    have h1 : ((throttleStep now e).mlMutationThrottledCount == 0) = false := by
      rw [beq_eq_false_iff_ne]
      omega
    have h2 : decide ((throttleStep now e).mlMutationThrottledCount
        < maxMutationsCount) = false := by
      rw [decide_eq_false_iff_not]
      omega
    rw [h1, h2, Bool.or_self, Bool.false_and]
  unfold classifyAttr
  rw [if_neg (by rw [hcond]; exact Bool.false_ne_true)]

/-- C6: for an eligible, un-throttled attribute record, `class` yields
`ClassChanged`; `style`/`fill`/`stroke` yield `StyleChanged` exactly when
complex mode is enabled, otherwise `Ignored`; any other attribute name yields
`Ignored`; and an ineligible element's record is always `Ignored`. -/
theorem attr_classification_rules (isComplex : Bool) (now : Nat) (e : ElemState)
    (attrName : String) :
    (eligible e = true →
      (throttleStep now e).mlMutationThrottledCount < maxMutationsCount →
      ((attrName = "class" →
          (classifyAttr isComplex now e attrName).2 = ChangeCategory.ClassChanged) ∧
       ((attrName = "style" ∨ attrName = "fill" ∨ attrName = "stroke") →
          (classifyAttr isComplex now e attrName).2 =
            (if isComplex then ChangeCategory.StyleChanged
             else ChangeCategory.Ignored)) ∧
       (attrName ≠ "class" → attrName ≠ "style" → attrName ≠ "fill" →
          attrName ≠ "stroke" →
          (classifyAttr isComplex now e attrName).2 = ChangeCategory.Ignored))) ∧
    (eligible e = false →
      (classifyAttr isComplex now e attrName).2 = ChangeCategory.Ignored) := by
  constructor
  · intro helig hcnt
    rw [classifyAttr_of_pass isComplex now e attrName hcnt helig]
    refine ⟨?_, ?_, ?_⟩
    · intro hname
      subst hname
      rfl
    · intro hname
      rcases hname with hn | hn | hn <;> subst hn <;> rfl
    · intro h1 h2 h3 h4
      simp [nameCategory, h1, h2, h3, h4]
  · intro helig
    rw [classifyAttr_of_ineligible isComplex now e attrName helig]

/-- Witness for C6: an eligible, fresh element: a `class` record is
`ClassChanged`, a `style` record in complex mode is `StyleChanged`, an
`id` record is `Ignored`; an ineligible element's `class` record is
`Ignored`. -/
theorem attr_classification_rules_witness :
    (classifyAttr true 0 (ElemState.mk none 0 true false) "class").2 =
      ChangeCategory.ClassChanged ∧
    (classifyAttr true 0 (ElemState.mk none 0 true false) "style").2 =
      (if true then ChangeCategory.StyleChanged else ChangeCategory.Ignored) ∧
    (classifyAttr true 0 (ElemState.mk none 0 true false) "id").2 =
      ChangeCategory.Ignored ∧
    (classifyAttr true 0 (ElemState.mk none 0 false false) "class").2 =
      ChangeCategory.Ignored :=
  ⟨((attr_classification_rules true 0 (ElemState.mk none 0 true false) "class").1
      (by decide) (by decide)).1 rfl,
   ((attr_classification_rules true 0 (ElemState.mk none 0 true false) "style").1
      (by decide) (by decide)).2.1 (Or.inl rfl),
   ((attr_classification_rules true 0 (ElemState.mk none 0 true false) "id").1
      (by decide) (by decide)).2.2 (by decide) (by decide) (by decide) (by decide),
   (attr_classification_rules true 0 (ElemState.mk none 0 false false) "class").2
      (by decide)⟩

/-- C3: (1) a colliding attribute record (arriving less than
`mutationThrottleTime` ms after the element's last recorded mutation
timestamp) increments the throttle counter; (2) once the counter has reached
`maxMutationsCount`, every further colliding record is classified `Ignored`;
(3) a record arriving after the throttle window has elapsed without a
collision resets the counter to zero and classification by attribute name
resumes.  (Part (3) uses the spec-modelled reset, `resetThrottle`.) -/
theorem throttle_cap_suppression :
    (∀ (isComplex : Bool) (now : Nat) (e : ElemState) (attrName : String),
      collides now e = true →
      (classifyAttr isComplex now e attrName).1.mlMutationThrottledCount =
        e.mlMutationThrottledCount + 1) ∧
    (∀ (isComplex : Bool) (now : Nat) (e : ElemState) (attrName : String),
      maxMutationsCount ≤ e.mlMutationThrottledCount →
      collides now e = true →
      (classifyAttrModelled isComplex now e attrName).2 = ChangeCategory.Ignored) ∧
    (∀ (isComplex : Bool) (now : Nat) (e : ElemState) (attrName : String),
      collides now e = false →
      (classifyAttrModelled isComplex now e attrName).1.mlMutationThrottledCount = 0 ∧
      (classifyAttrModelled isComplex now e attrName).2 =
        (if eligible e = true then nameCategory isComplex attrName
         else ChangeCategory.Ignored)) := by
  refine ⟨?_, ?_, ?_⟩
  · intro isComplex now e attrName hcol
    rw [classifyAttr_fst]
    unfold throttleStep
    rw [if_pos hcol]
  · intro isComplex now e attrName hcap hcol
    have hre : resetThrottle now e = e := by
      unfold resetThrottle
      rw [if_pos hcol]
    unfold classifyAttrModelled
    rw [hre]
    have hstep : (throttleStep now e).mlMutationThrottledCount =
        e.mlMutationThrottledCount + 1 := by
      unfold throttleStep
      rw [if_pos hcol]
    rw [classifyAttr_of_capped isComplex now e attrName (by omega)]
  · intro isComplex now e attrName hcol
    have hcol' : collides now (resetThrottle now e) = false := by
      rw [collides_resetThrottle]
      exact hcol
    have hstep : throttleStep now (resetThrottle now e) = resetThrottle now e := by
      unfold throttleStep
      rw [hcol']
      simp
    have hcnt : (resetThrottle now e).mlMutationThrottledCount = 0 := by
      unfold resetThrottle
      rw [hcol]
      simp
    unfold classifyAttrModelled
    by_cases helig : eligible e = true
    · rw [classifyAttr_of_pass isComplex now (resetThrottle now e) attrName
        (by rw [hstep, hcnt]; decide) (by rw [eligible_resetThrottle]; exact helig)]
      rw [hstep]
      exact ⟨hcnt, by rw [if_pos helig]⟩
    · have helig' : eligible e = false := by
        cases hcase : eligible e
        · rfl
        · exact absurd hcase helig
      rw [classifyAttr_of_ineligible isComplex now (resetThrottle now e) attrName
        (by rw [eligible_resetThrottle]; exact helig')]
      rw [hstep]
      exact ⟨hcnt, by rw [if_neg (by rw [helig']; exact Bool.false_ne_true)]⟩

/-- Witness for C3: an element whose last mutation was 5 ms ago (collision):
its counter increments; at the cap the colliding record is `Ignored`; an
element whose last mutation was 50 ms ago (window elapsed) has its counter
reset from the cap to zero and a `class` record is classified again. -/
theorem throttle_cap_suppression_witness :
    (classifyAttr true 10 (ElemState.mk (some 5) 3 true false) "class").1.mlMutationThrottledCount
      = 3 + 1 ∧
    (classifyAttrModelled true 10
        (ElemState.mk (some 5) 300 true false) "class").2 = ChangeCategory.Ignored ∧
    ((classifyAttrModelled true 55
        (ElemState.mk (some 5) 300 true false) "class").1.mlMutationThrottledCount = 0 ∧
     (classifyAttrModelled true 55 (ElemState.mk (some 5) 300 true false) "class").2 =
       (if eligible (ElemState.mk (some 5) 300 true false) = true
        then nameCategory true "class" else ChangeCategory.Ignored)) :=
  ⟨throttle_cap_suppression.1 true 10 (ElemState.mk (some 5) 3 true false) "class"
     (by decide),
   throttle_cap_suppression.2.1 true 10 (ElemState.mk (some 5) 300 true false) "class"
     (by decide) (by decide),
   throttle_cap_suppression.2.2 true 55 (ElemState.mk (some 5) 300 true false) "class"
     (by decide)⟩

/-- C7 counterexample: a batch of two `ml-update` records with targets 7 and
8 publishes only the first target; target 8 gets no publication, refuting
"each record's target is published". -/
theorem targeted_update_batch_cex :
    updateObserverCallback [7, 8] = some [ChannelEvent.targetedUpdate 7] ∧
    ¬ ChannelEvent.targetedUpdate 8 ∈ [ChannelEvent.targetedUpdate 7] := by
  decide

/-- C7 amended: every non-empty `ml-update` batch unconditionally produces
exactly one `TargetedUpdate` publication, for the first record's target,
bypassing throttling and coalescing; records after the first produce no
additional publication. -/
theorem targeted_update_first_of_batch (t : Nat) (rest : List Nat) :
    updateObserverCallback (t :: rest) = some [ChannelEvent.targetedUpdate t] :=
  rfl

/-! ## Empty-set publication suppression -/

lemma groupAdded_events_nonempty (now : Nat) (es : Finset Nat) (st : AccState) :
    ∀ ev ∈ (groupAddedElements now es st).2, eventSetNonempty ev := by
  intro ev hmem
  by_cases hbig : addedElementsGroupMinimumSize < (st.group ∪ es).card
  · rw [groupAdded_big_flush now es st hbig] at hmem
    simp only [List.mem_singleton] at hmem
    subst hmem
    simp only [eventSetNonempty]
    intro he
    rw [he] at hbig
    simp [addedElementsGroupMinimumSize] at hbig
  · rw [groupAdded_small now es st hbig] at hmem
    simp at hmem

lemma dispatch_events_nonempty (now : Nat) (s : BodyScan) (acc : AccState) :
    ∀ ev ∈ (dispatchScan now s acc).2, eventSetNonempty ev := by
  intro ev hmem
  rcases List.mem_append.mp hmem with h12 | h3
  · rcases List.mem_append.mp h12 with h1 | h2
    · by_cases hs : s.styleChanges = ∅
      · rw [if_pos hs] at h1
        simp at h1
      · rw [if_neg hs] at h1
        simp only [List.mem_singleton] at h1
        subst h1
        exact hs
    · by_cases hc : s.childListChanges = ∅
      · rw [if_pos hc] at h2
        simp at h2
      · rw [if_neg hc] at h2
        exact groupAdded_events_nonempty now s.childListChanges acc ev h2
  · by_cases hc : s.classChanges = ∅
    · rw [if_pos hc] at h3
      simp at h3
    · rw [if_neg hc] at h3
      simp only [List.mem_singleton] at h3
      subst h3
      exact hc

/-- C8: (1) every event published by the body-observer callback carries a
non-empty element set — in particular no `ClassChanged`, `StyleChanged` or
`ElementsAdded` dispatch happens with an empty computed set; (2) flushing an
empty accumulator group only clears the timers and raises nothing. -/
theorem empty_publication_suppressed :
    (∀ (env : ObsEnv) (now : Nat) (ms : List MRecord) (elemTab : Nat → ElemState)
       (acc : AccState) (ev : ChannelEvent),
      ev ∈ (bodyObserverCallback env now ms elemTab acc).2.2.1 →
      eventSetNonempty ev) ∧
    (∀ st : AccState, st.group = ∅ →
      releaseAddedElementsGroup st = (clearAllTimeouts st, [])) := by
  constructor
  · intro env now ms elemTab acc ev hmem
    exact dispatch_events_nonempty now (bodyScan env.isComplex now ms elemTab) acc ev hmem
  · intro st hg
    rw [releaseAddedElementsGroup, if_pos hg]

/-- Witness for C8: a batch with one eligible `class` record publishes
`ClassChanged {0}`, which is non-empty; flushing the initial (empty) group
raises nothing. -/
theorem empty_publication_suppressed_witness :
    eventSetNonempty (ChannelEvent.classChanged {0}) ∧
    releaseAddedElementsGroup accInit = (clearAllTimeouts accInit, []) :=
  ⟨empty_publication_suppressed.1 (ObsEnv.mk true true) 0
     [MRecord.attrRec 0 "class"] (fun _ => ElemState.mk none 0 true false) accInit
     (ChannelEvent.classChanged {0}) (by decide),
   empty_publication_suppressed.2 accInit (by decide)⟩

/-! ## Watcher lifecycle theorems -/

/-- Synchronous effect of a stop on a present body observer: previous state
returned, observer stopped/disconnected with its pending records captured,
and the deferred body drain of exactly those records appended to the task
queue (possibly followed by a head drain task). -/
lemma stop_body_result (isComplex : Bool) (doc : Nat) (hasHead : Bool)
    (sys : SysState) (ob : MutObserver) (h : sys.bodyObservers doc = some ob) :
    (stopDocumentObservation isComplex doc hasHead sys).1 = some ob.state ∧
    (stopDocumentObservation isComplex doc hasHead sys).2.bodyObservers doc =
      some (MutObserver.mk ObservationState.Stopped [] false) ∧
    ∃ extra, (stopDocumentObservation isComplex doc hasHead sys).2.tasks =
      sys.tasks ++ [DrainTask.bodyDrain doc ob.pending] ++ extra := by
  unfold stopDocumentObservation
  rw [h]
  cases hasHead with
  | false =>
      refine ⟨rfl, by simp, [], by simp⟩
  | true =>
      rcases hho : sys.headObservers doc with _ | ho
      · refine ⟨rfl, ?_, [], ?_⟩ <;> simp [hho]
      · refine ⟨rfl, ?_, ?_⟩
        · simp [hho]
        · refine ⟨if isComplex then [DrainTask.headDrain doc ho.pending] else [], ?_⟩
          simp [hho]

/-- C4: stopping a document with an existing body observer synchronously
returns the previous state, captures the pending records, disconnects the
observer and marks it `Stopped` — all before the call returns — while the
classify-and-publish pass over the captured records is only a scheduled
deferred task; running that task later performs exactly the normal
`bodyObserverCallback` on the captured records, so the `Stopped` state is
observable strictly before any residual event surfaces. -/
theorem stop_defers_drain (isComplex : Bool) (doc : Nat) (hasHead : Bool)
    (sys : SysState) (ob : MutObserver) (h : sys.bodyObservers doc = some ob) :
    (stopDocumentObservation isComplex doc hasHead sys).1 = some ob.state ∧
    (stopDocumentObservation isComplex doc hasHead sys).2.bodyObservers doc =
      some (MutObserver.mk ObservationState.Stopped [] false) ∧
    (∃ extra, (stopDocumentObservation isComplex doc hasHead sys).2.tasks =
      sys.tasks ++ [DrainTask.bodyDrain doc ob.pending] ++ extra) ∧
    (∀ (env : ObsEnv) (now : Nat) (elemTab : Nat → ElemState) (acc : AccState),
      runDrainTask env now elemTab acc (DrainTask.bodyDrain doc ob.pending) =
        bodyObserverCallback env now ob.pending elemTab acc) :=
  ⟨(stop_body_result isComplex doc hasHead sys ob h).1,
   (stop_body_result isComplex doc hasHead sys ob h).2.1,
   (stop_body_result isComplex doc hasHead sys ob h).2.2,
   fun _ _ _ _ => rfl⟩

/-- Witness for C4: one record pending, no head. -/
theorem stop_defers_drain_witness :
    (stopDocumentObservation true 0 false
       (SysState.mk (fun _ => some (MutObserver.mk ObservationState.Active
          [MRecord.otherRec] true)) (fun _ => none) [])).1 =
      some ObservationState.Active ∧
    (stopDocumentObservation true 0 false
       (SysState.mk (fun _ => some (MutObserver.mk ObservationState.Active
          [MRecord.otherRec] true)) (fun _ => none) [])).2.bodyObservers 0 =
      some (MutObserver.mk ObservationState.Stopped [] false) ∧
    (∃ extra, (stopDocumentObservation true 0 false
       (SysState.mk (fun _ => some (MutObserver.mk ObservationState.Active
          [MRecord.otherRec] true)) (fun _ => none) [])).2.tasks =
      [] ++ [DrainTask.bodyDrain 0 [MRecord.otherRec]] ++ extra) ∧
    (∀ (env : ObsEnv) (now : Nat) (elemTab : Nat → ElemState) (acc : AccState),
      runDrainTask env now elemTab acc (DrainTask.bodyDrain 0 [MRecord.otherRec]) =
        bodyObserverCallback env now [MRecord.otherRec] elemTab acc) :=
  stop_defers_drain true 0 false
    (SysState.mk (fun _ => some (MutObserver.mk ObservationState.Active
       [MRecord.otherRec] true)) (fun _ => none) [])
    (MutObserver.mk ObservationState.Active [MRecord.otherRec] true) rfl

/-- A body drain over an empty record list publishes nothing and leaves the
accumulator untouched. -/
lemma bodyCallback_nil (env : ObsEnv) (now : Nat) (elemTab : Nat → ElemState)
    (acc : AccState) :
    bodyObserverCallback env now [] elemTab acc = (elemTab, acc, [], !env.isActive) := by
  simp [bodyObserverCallback, bodyScan, dispatchScan]

/-- C5: stopping an already-stopped watcher returns `Stopped`, leaves the
watcher `Stopped`, and the drain task it schedules carries no records — the
records drained by the first stop are not re-published: running the second
drain raises no event and leaves the accumulator unchanged. -/
theorem stop_idempotent (isComplex : Bool) (doc : Nat) (hasHead : Bool)
    (sys : SysState) (ob : MutObserver) (h : sys.bodyObservers doc = some ob) :
    (stopDocumentObservation isComplex doc hasHead
        (stopDocumentObservation isComplex doc hasHead sys).2).1 =
      some ObservationState.Stopped ∧
    (stopDocumentObservation isComplex doc hasHead
        (stopDocumentObservation isComplex doc hasHead sys).2).2.bodyObservers doc =
      some (MutObserver.mk ObservationState.Stopped [] false) ∧
    (∃ extra, (stopDocumentObservation isComplex doc hasHead
        (stopDocumentObservation isComplex doc hasHead sys).2).2.tasks =
      (stopDocumentObservation isComplex doc hasHead sys).2.tasks ++
        [DrainTask.bodyDrain doc []] ++ extra) ∧
    (∀ (env : ObsEnv) (now : Nat) (elemTab : Nat → ElemState) (acc : AccState),
      (runDrainTask env now elemTab acc (DrainTask.bodyDrain doc [])).2.2.1 = [] ∧
      (runDrainTask env now elemTab acc (DrainTask.bodyDrain doc [])).2.1 = acc) := by
  have h1 := (stop_body_result isComplex doc hasHead sys ob h).2.1
  have h2 := stop_body_result isComplex doc hasHead
    (stopDocumentObservation isComplex doc hasHead sys).2
    (MutObserver.mk ObservationState.Stopped [] false) h1
  refine ⟨h2.1, h2.2.1, h2.2.2, ?_⟩
  intro env now elemTab acc
  constructor <;> simp [runDrainTask, bodyCallback_nil]

/-- Witness for C5: stop the same document twice; the second stop returns
`Stopped` and its drain task is empty. -/
theorem stop_idempotent_witness :
    (stopDocumentObservation true 0 false
        (stopDocumentObservation true 0 false
          (SysState.mk (fun _ => some (MutObserver.mk ObservationState.Active
             [MRecord.otherRec] true)) (fun _ => none) [])).2).1 =
      some ObservationState.Stopped ∧
    (stopDocumentObservation true 0 false
        (stopDocumentObservation true 0 false
          (SysState.mk (fun _ => some (MutObserver.mk ObservationState.Active
             [MRecord.otherRec] true)) (fun _ => none) [])).2).2.bodyObservers 0 =
      some (MutObserver.mk ObservationState.Stopped [] false) ∧
    (∃ extra, (stopDocumentObservation true 0 false
        (stopDocumentObservation true 0 false
          (SysState.mk (fun _ => some (MutObserver.mk ObservationState.Active
             [MRecord.otherRec] true)) (fun _ => none) [])).2).2.tasks =
      (stopDocumentObservation true 0 false
          (SysState.mk (fun _ => some (MutObserver.mk ObservationState.Active
             [MRecord.otherRec] true)) (fun _ => none) [])).2.tasks ++
        [DrainTask.bodyDrain 0 []] ++ extra) ∧
    (∀ (env : ObsEnv) (now : Nat) (elemTab : Nat → ElemState) (acc : AccState),
      (runDrainTask env now elemTab acc (DrainTask.bodyDrain 0 [])).2.2.1 = [] ∧
      (runDrainTask env now elemTab acc (DrainTask.bodyDrain 0 [])).2.1 = acc) :=
  stop_idempotent true 0 false
    (SysState.mk (fun _ => some (MutObserver.mk ObservationState.Active
       [MRecord.otherRec] true)) (fun _ => none) [])
    (MutObserver.mk ObservationState.Active [MRecord.otherRec] true) rfl

/-- C10: stopping a document for which observation was never started (no body
observer — and hence, since head observers are only ever created together
with a body observer in `startDocumentObservation`, no head observer either)
returns `undefined` and changes nothing: no state change, no scheduled
drain. -/
theorem stop_never_started_noop (isComplex : Bool) (doc : Nat) (hasHead : Bool)
    (sys : SysState) (hb : sys.bodyObservers doc = none)
    (hh : sys.headObservers doc = none) :
    stopDocumentObservation isComplex doc hasHead sys = (none, sys) := by
  unfold stopDocumentObservation
  rw [hb]
  cases hasHead <;> simp [hh]

/-- Witness for C10: an empty registry. -/
theorem stop_never_started_noop_witness :
    stopDocumentObservation true 0 true
        (SysState.mk (fun _ => none) (fun _ => none) []) =
      (none, SysState.mk (fun _ => none) (fun _ => none) []) :=
  stop_never_started_noop true 0 true
    (SysState.mk (fun _ => none) (fun _ => none) []) rfl rfl

/-! ## Flush aliasing theorems (heap model) -/

lemma releaseHeap_groupRef (st : AccHeap) :
    (releaseAddedElementsGroupHeap st).1.groupRef = st.groupRef := by
  unfold releaseAddedElementsGroupHeap
  split <;> rfl

lemma releaseHeap_nextRef (st : AccHeap) :
    (releaseAddedElementsGroupHeap st).1.nextRef = st.nextRef := by
  unfold releaseAddedElementsGroupHeap
  split <;> rfl

lemma groupAddedHeap_groupRef (now : Nat) (es : Finset Nat) (st : AccHeap) :
    (groupAddedElementsHeap now es st).1.groupRef = st.nextRef := by
  unfold groupAddedElementsHeap
  split
  · rw [releaseHeap_groupRef]
    rfl
  · rfl

/-- C9: flushing a non-empty group dispatches the accumulator's live group
object itself (the event carries `groupRef`, whose contents at dispatch time
are the full group `st.store st.groupRef`), and immediately after the
dispatch that same object is cleared in place — a listener retaining the
reference sees it become empty — while `groupRef` (and `nextRef`) are
unchanged by the flush: a new set object is allocated only by the next add,
which repoints the group at the fresh reference `nextRef`, distinct from the
dispatched one. -/
theorem flush_set_aliasing (st : AccHeap)
    (hne : st.store st.groupRef ≠ ∅) (hfresh : st.groupRef < st.nextRef) :
    (releaseAddedElementsGroupHeap st).2 = [st.groupRef] ∧
    (releaseAddedElementsGroupHeap st).1.store st.groupRef = ∅ ∧
    (releaseAddedElementsGroupHeap st).1.groupRef = st.groupRef ∧
    (releaseAddedElementsGroupHeap st).1.nextRef = st.nextRef ∧
    (∀ (now : Nat) (es : Finset Nat),
      (groupAddedElementsHeap now es (releaseAddedElementsGroupHeap st).1).1.groupRef =
        st.nextRef ∧ st.nextRef ≠ st.groupRef) := by
  refine ⟨?_, ?_, releaseHeap_groupRef st, releaseHeap_nextRef st, ?_⟩
  · unfold releaseAddedElementsGroupHeap
    rw [if_neg hne]
  · unfold releaseAddedElementsGroupHeap
    rw [if_neg hne]
    simp
  · intro now es
    refine ⟨?_, by omega⟩
    rw [groupAddedHeap_groupRef, releaseHeap_nextRef]

/-- Witness for C9: a concrete heap with one live group object `0` holding
`{5}` and next fresh reference `1`. -/
theorem flush_set_aliasing_witness :
    (releaseAddedElementsGroupHeap
        (AccHeap.mk 1 (fun r => if r = 0 then {5} else ∅) 0 none none)).2 = [0] ∧
    (releaseAddedElementsGroupHeap
        (AccHeap.mk 1 (fun r => if r = 0 then {5} else ∅) 0 none none)).1.store 0 = ∅ ∧
    (releaseAddedElementsGroupHeap
        (AccHeap.mk 1 (fun r => if r = 0 then {5} else ∅) 0 none none)).1.groupRef = 0 ∧
    (releaseAddedElementsGroupHeap
        (AccHeap.mk 1 (fun r => if r = 0 then {5} else ∅) 0 none none)).1.nextRef = 1 ∧
    (∀ (now : Nat) (es : Finset Nat),
      (groupAddedElementsHeap now es (releaseAddedElementsGroupHeap
          (AccHeap.mk 1 (fun r => if r = 0 then {5} else ∅) 0 none none)).1).1.groupRef =
        1 ∧ (1 : Nat) ≠ 0) :=
  flush_set_aliasing (AccHeap.mk 1 (fun r => if r = 0 then {5} else ∅) 0 none none)
    (by decide) (by decide)
